import Mathlib

/-!
Verification of the game-state persistence core of `my_agent/agent.py`:
a JSON file holding a player record, a combat record and an inventory,
with operations `initialize_player`, `add_to_inventory`, `start_combat`,
`apply_damage` and `end_combat`, each of which loads the file, mutates
the state and saves it back.

The Python state is an untyped JSON value; we embed it as the inductive
`Json` below, with a Python `dict` represented by its ordered list of
key-value pairs (keys unique in any value produced by `json.load`).
A Python exception that the code does not catch is modelled by `Option`
(for the helpers) and by the `OpOutcome.exn` constructor (for the tools).
-/

namespace DndAgent

/-- JSON-like values as produced by `json.load`: a Python dict is
represented as its ordered list of key-value pairs, numbers as integers
(all numbers this program writes are integers). -/
inductive Json where
  | null : Json
  | bool (b : Bool) : Json
  | num (n : Int) : Json
  | str (s : String) : Json
  | arr (elems : List Json) : Json
  | obj (fields : List (String × Json)) : Json

/-- Python `d[key]` read on a dict: the value at the first matching key. -/
def lookupField : List (String × Json) → String → Option Json
  | [], _ => none
  | (k, v) :: rest, key => if k = key then some v else lookupField rest key

/-- Python `d[key] = v` on a dict: replace the value at `key`, or append
the pair when the key is absent. -/
def setField : List (String × Json) → String → Json → List (String × Json)
  | [], key, v => [(key, v)]
  | (k, w) :: rest, key, v =>
    if k = key then (k, v) :: rest else (k, w) :: setField rest key v

/-- Python `del d[key]` on a dict: drop the entry at `key`. -/
def removeField : List (String × Json) → String → List (String × Json)
  | [], _ => []
  | (k, w) :: rest, key => if k = key then rest else (k, w) :: removeField rest key

/-- Python truthiness of a JSON value (`not state`, `if not combat[...]`). -/
def Json.falsy : Json → Bool
  | .null => true
  | .bool b => !b
  | .num n => n == 0
  | .str s => s == ""
  | .arr xs => xs.isEmpty
  | .obj fs => fs.isEmpty

/-- Python `str.lower()` (the program only compares ASCII strings). -/
def strLower (s : String) : String := String.mk (s.data.map Char.toLower)

/-- Python substring test `pat in s` for strings. -/
def strContains (s pat : String) : Bool := (s.splitOn pat).length != 1

/-- Python `==` between a JSON value and a string: only a string can
compare equal to a string. -/
def jsonEqStr : Json → String → Bool
  | .str t, s => t == s
  | _, _ => false

/-- Python `key in j`: key test on a dict, element test on a list,
substring test on a string; a `TypeError` (modelled `none`) otherwise. -/
def Json.hasMem : Json → String → Option Bool
  | .obj fs, key => some (lookupField fs key).isSome
  | .arr xs, key => some (xs.any (fun e => jsonEqStr e key))
  | .str s, key => some (strContains s key)
  | _, _ => none

/-- Python `j[key]` with a string key: dict lookup; `KeyError` on a dict
missing the key and `TypeError` on any non-dict are both `none`. -/
def Json.getItem : Json → String → Option Json
  | .obj fs, key => lookupField fs key
  | _, _ => none

/-- Python `j[key] = v` with a string key: `none` models the `TypeError`
raised on a non-dict. -/
def Json.setItem : Json → String → Json → Option Json
  | .obj fs, key, v => some (.obj (setField fs key v))
  | _, _, _ => none

/-- Python `del j[key]`: `none` models the `TypeError` raised on a non-dict. -/
def Json.delItem : Json → String → Option Json
  | .obj fs, key => some (.obj (removeField fs key))
  | _, _ => none

/-- Python integer arithmetic on a JSON value: `int` directly, `bool` as
`0`/`1` (Python bools are ints); anything else raises (`none`). -/
def Json.asInt : Json → Option Int
  | .num n => some n
  | .bool b => some (if b then 1 else 0)
  | _ => none

/-- The `player` sub-record of the module's `default_state` literal. -/
def defaultPlayerFields : List (String × Json) :=
  [("name", Json.str "Unknown"), ("class", Json.str "Unknown"),
   ("hp", Json.num 0), ("max_hp", Json.num 0), ("ac", Json.num 0),
   ("location", Json.str "Triboar Trail")]

/-- The `combat` sub-record of the module's `default_state` literal. -/
def defaultCombatFields : List (String × Json) :=
  [("active", Json.bool false), ("round", Json.num 0),
   ("initiative_order", Json.arr []), ("enemies", Json.obj [])]

/-- The fields of the `default_state` literal in `_load_state`. -/
def defaultFields : List (String × Json) :=
  [("player", Json.obj defaultPlayerFields),
   ("combat", Json.obj defaultCombatFields),
   ("inventory", Json.arr [])]

/-- The `default_state` dict constructed inside `_load_state`. -/
def defaultState : Json := Json.obj defaultFields

/-- The condition of the backing file `gamestate.json` as `_load_state`
observes it: absent, unreadable-or-unparsable (`json.JSONDecodeError` or
`IOError`, both caught), or holding a parsed JSON value. -/
inductive FileState where
  | absent : FileState
  | invalid : FileState
  | parsed (j : Json) : FileState

/-- `_load_state`: default on a missing file; otherwise parse, and fall
back to the default when parsing fails, the value is falsy, or the value
has no `"player"` member.  `none` models the uncaught `TypeError` a
non-container truthy value raises in the membership test. -/
def load_state : FileState → Option Json
  | .absent => some defaultState
  | .invalid => some defaultState
  | .parsed j =>
    if j.falsy then some defaultState
    else
      match j.hasMem "player" with
      | none => none
      | some true => some j
      | some false => some defaultState

/-- `_save_state`: `json.dump` overwrites the file with the serialization
of `st`, which parses back to `st`. -/
def save_state (st : Json) : FileState := FileState.parsed st

/-- Outcome of one tool call on the in-memory state it loaded:
`ok st msg` means the state `st` was passed to `_save_state` and `msg`
returned; `soft msg` means `msg` was returned without saving; `exn`
means an uncaught Python exception escaped before any save. -/
inductive OpOutcome where
  | ok (newState : Json) (msg : String) : OpOutcome
  | soft (msg : String) : OpOutcome
  | exn : OpOutcome

/-- A whole tool call at the file level: load, run the operation body,
and write the file exactly when the body reaches `_save_state`.  The
second component is the returned string, `none` when an exception
escaped instead. -/
def runOp (op : Json → OpOutcome) (f : FileState) : FileState × Option String :=
  match load_state f with
  | none => (f, none)
  | some st =>
    match op st with
    | .ok st2 msg => (save_state st2, some msg)
    | .soft msg => (f, some msg)
    | .exn => (f, none)

/-- `initialize_player`: `state['player'].update({...})` with the seven
literal keys in order, then save. -/
def initialize_player (name race char_class background : String)
    (max_hp ac : Int) (st : Json) : OpOutcome :=
  match st.getItem "player" with
  | none => .exn
  | some p =>
    match p with
    | .obj pf =>
      let pf1 := setField pf "name" (Json.str name)
      let pf2 := setField pf1 "race" (Json.str race)
      let pf3 := setField pf2 "class" (Json.str char_class)
      let pf4 := setField pf3 "background" (Json.str background)
      let pf5 := setField pf4 "hp" (Json.num max_hp)
      let pf6 := setField pf5 "max_hp" (Json.num max_hp)
      let pf7 := setField pf6 "ac" (Json.num ac)
      match st.setItem "player" (Json.obj pf7) with
      | none => .exn
      | some st2 =>
        .ok st2 ("Player " ++ name ++ " (Race: " ++ race ++ ", Class: " ++
          char_class ++ ") initialized with " ++ toString max_hp ++
          " HP and " ++ toString ac ++ " AC.")
    | _ => .exn

/-- `add_to_inventory`: `state.get('inventory', [])`, extend with the
items, store the list back, save. -/
def add_to_inventory (items : List String) (st : Json) : OpOutcome :=
  match st with
  | .obj fs =>
    let inv := match lookupField fs "inventory" with
      | some v => v
      | none => Json.arr []
    match inv with
    | .arr xs =>
      .ok (Json.obj (setField fs "inventory" (Json.arr (xs ++ items.map Json.str))))
        ("Added to inventory: " ++ String.intercalate ", " items)
    | _ => .exn
  | _ => .exn

/-- `start_combat`: set `combat.active` to true and replace
`combat.enemies` wholesale with the given name-to-HP dict, then save. -/
def start_combat (enemies : List (String × Int)) (st : Json) : OpOutcome :=
  match st.getItem "combat" with
  | none => .exn
  | some c =>
    match c with
    | .obj cf =>
      let cf1 := setField cf "active" (Json.bool true)
      let cf2 := setField cf1 "enemies"
        (Json.obj (enemies.map (fun e => (e.1, Json.num e.2))))
      match st.setItem "combat" (Json.obj cf2) with
      | none => .exn
      | some st2 =>
        .ok st2 ("Combat started with: " ++
          String.intercalate ", " (enemies.map Prod.fst) ++ ".")
    | _ => .exn

/-- `end_combat`: force `combat.active` to false and clear
`combat.enemies`, then save. -/
def end_combat (st : Json) : OpOutcome :=
  match st.getItem "combat" with
  | none => .exn
  | some c =>
    match c with
    | .obj cf =>
      let cf1 := setField cf "active" (Json.bool false)
      let cf2 := setField cf1 "enemies" (Json.obj [])
      match st.setItem "combat" (Json.obj cf2) with
      | none => .exn
      | some st2 => .ok st2 "Combat ended manually."
    | _ => .exn

/-- The apostrophe character, as used in the not-found error message. -/
def sq : String := String.mk [Char.ofNat 39]

/-- The error string `apply_damage` returns for an unknown target. -/
def targetNotFoundMsg (target : String) : String :=
  "Error: Target " ++ sq ++ target ++ sq ++ " not found in active combat."

/-- `apply_damage`: player damage when the target lowercases to
`"player"` (soft error when the player record has no `hp` key); enemy
damage when combat is truthy-active and the target is a member of
`combat.enemies` (deleting the enemy at `new_hp <= 0` and ending combat
when the dict empties); otherwise the not-found soft error. -/
def apply_damage (target : String) (damage : Int) (st : Json) : OpOutcome :=
  match st with
  | .obj fs =>
    let combatJ := match lookupField fs "combat" with
      | some v => v
      | none => Json.obj []
    if strLower target = "player" then
      match lookupField fs "player" with
      | none => .exn
      | some p =>
        match p.hasMem "hp" with
        | none => .exn
        | some false =>
          .soft "Error: Player HP not initialized. Ask player for their max HP first."
        | some true =>
          match p.getItem "hp" with
          | none => .exn
          | some hpJ =>
            match hpJ.asInt with
            | none => .exn
            | some old_hp =>
              match p.setItem "hp" (Json.num (old_hp - damage)) with
              | none => .exn
              | some p2 =>
                .ok (Json.obj (setField fs "player" p2))
                  ("Player took " ++ toString damage ++ " damage. HP: " ++
                    toString old_hp ++ " -> " ++ toString (old_hp - damage) ++ ".")
    else
      match combatJ with
      | .obj cf =>
        let activeJ := match lookupField cf "active" with
          | some v => v
          | none => Json.null
        if activeJ.falsy then .soft (targetNotFoundMsg target)
        else
          let enemiesJ := match lookupField cf "enemies" with
            | some v => v
            | none => Json.obj []
          match enemiesJ.hasMem target with
          | none => .exn
          | some false => .soft (targetNotFoundMsg target)
          | some true =>
            match enemiesJ.getItem target with
            | none => .exn
            | some hpJ =>
              match hpJ.asInt with
              | none => .exn
              | some old_hp =>
                if old_hp - damage ≤ 0 then
                  match enemiesJ.delItem target with
                  | none => .exn
                  | some e2 =>
                    let cf1 := setField cf "enemies" e2
                    if e2.falsy then
                      .ok (Json.obj (setField fs "combat"
                            (Json.obj (setField cf1 "active" (Json.bool false)))))
                        (target ++ " took " ++ toString damage ++
                          " damage and has died! Combat has ended.")
                    else
                      .ok (Json.obj (setField fs "combat" (Json.obj cf1)))
                        (target ++ " took " ++ toString damage ++
                          " damage and has died!")
                else
                  match enemiesJ.setItem target (Json.num (old_hp - damage)) with
                  | none => .exn
                  | some e2 =>
                    .ok (Json.obj (setField fs "combat"
                          (Json.obj (setField cf "enemies" e2))))
                      (target ++ " took " ++ toString damage ++ " damage. HP: " ++
                        toString old_hp ++ " -> " ++ toString (old_hp - damage) ++ ".")
      | _ => .exn
  | _ => .exn

/-- One saving invocation of any of the five mutating tools, relating
the state it loaded to the state it saved. -/
inductive Step : Json → Json → Prop where
  | init_player (name race char_class background : String) (max_hp ac : Int)
      (st st' : Json) (msg : String)
      (h : initialize_player name race char_class background max_hp ac st = .ok st' msg) :
      Step st st'
  | add_inv (items : List String) (st st' : Json) (msg : String)
      (h : add_to_inventory items st = .ok st' msg) : Step st st'
  | start (enemies : List (String × Int)) (st st' : Json) (msg : String)
      (h : start_combat enemies st = .ok st' msg) : Step st st'
  | damage (target : String) (d : Int) (st st' : Json) (msg : String)
      (h : apply_damage target d st = .ok st' msg) : Step st st'
  | endc (st st' : Json) (msg : String)
      (h : end_combat st = .ok st' msg) : Step st st'

/-- Zero or more saving tool invocations. -/
inductive Steps : Json → Json → Prop where
  | refl (st : Json) : Steps st st
  | tail (st st' st'' : Json) (h : Steps st st') (hs : Step st' st'') : Steps st st''

/-- States reachable from the default state by tool invocations. -/
def Reachable (st : Json) : Prop := Steps defaultState st

/-- The design invariant: when `combat.active` is `false`,
`combat.enemies` is the empty dict. -/
def combatInv (st : Json) : Prop :=
  ∀ fs cf, st = Json.obj fs → lookupField fs "combat" = some (Json.obj cf) →
    lookupField cf "active" = some (Json.bool false) →
    lookupField cf "enemies" = some (Json.obj [])

theorem lookupField_setField_self (l : List (String × Json)) (k : String) (v : Json) :
    lookupField (setField l k v) k = some v := by
  induction l with
  | nil => simp [setField, lookupField]
  | cons kv rest ih =>
    by_cases h : kv.1 = k
    · simp [setField, lookupField, h]
    · simp [setField, lookupField, h, ih]

theorem lookupField_setField_ne (l : List (String × Json)) (k k' : String) (v : Json)
    (h : k' ≠ k) : lookupField (setField l k v) k' = lookupField l k' := by
  induction l with
  | nil => simp [setField, lookupField, Ne.symm h]
  | cons kv rest ih =>
    by_cases hk : kv.1 = k
    · subst hk
      simp [setField, lookupField, Ne.symm h]
    · by_cases hk' : kv.1 = k'
      · simp [setField, lookupField, hk, hk', h]
      · simp [setField, lookupField, hk, hk', ih]

theorem lookupField_eq_some_mem (l : List (String × Json)) (k : String) (v : Json)
    (h : lookupField l k = some v) : k ∈ l.map Prod.fst := by
  induction l with
  | nil => simp [lookupField] at h
  | cons kv rest ih =>
    by_cases hk : kv.1 = k
    · simp [hk]
    · rw [lookupField, if_neg hk] at h
      simp [ih h]

theorem lookupField_removeField_self (l : List (String × Json)) (k : String)
    (hnd : (l.map Prod.fst).Nodup) : lookupField (removeField l k) k = none := by
  induction l with
  | nil => simp [removeField, lookupField]
  | cons kv rest ih =>
    simp only [List.map_cons, List.nodup_cons] at hnd
    by_cases hk : kv.1 = k
    · subst hk
      rw [removeField, if_pos rfl]
      cases hlk : lookupField rest kv.1 with
      | none => rfl
      | some v => exact absurd (lookupField_eq_some_mem _ _ _ hlk) hnd.1
    · simp [removeField, hk, lookupField, ih hnd.2]

/-- C1: for every backing-file condition among file absent, contents
invalid, contents the empty object, and contents a non-empty record
lacking a `player` key, `_load_state` returns the identical default
`GameState` (player Unknown/Unknown/0/0/0/Triboar Trail, combat
inactive with round 0, empty initiative order and enemies, empty
inventory), never failing and never returning an absent value. -/
theorem load_state_fallback_default (fs : List (String × Json))
    (hne : fs ≠ []) (hnp : lookupField fs "player" = none) :
    load_state FileState.absent = some defaultState ∧
    load_state FileState.invalid = some defaultState ∧
    load_state (FileState.parsed (Json.obj [])) = some defaultState ∧
    load_state (FileState.parsed (Json.obj fs)) = some defaultState := by
  refine ⟨rfl, rfl, rfl, ?_⟩
  cases fs with
  | nil => exact absurd rfl hne
  | cons kv rest => simp [load_state, Json.falsy, Json.hasMem, hnp]

theorem load_state_fallback_default_witness :
    ([(("foo" : String), Json.num 1)] ≠ []) ∧
    lookupField [(("foo" : String), Json.num 1)] "player" = none ∧
    load_state (FileState.parsed (Json.obj [("foo", Json.num 1)])) = some defaultState :=
  ⟨List.cons_ne_nil _ _, rfl,
    (load_state_fallback_default [("foo", Json.num 1)] (List.cons_ne_nil _ _) rfl).2.2.2⟩

/-- C5: saving any well-formed `GameState` (a non-empty record with a
`player` key) and loading again yields that record verbatim, with no
schema migration or field-filling. -/
theorem save_load_roundtrip (fs : List (String × Json)) (p : Json)
    (hne : fs ≠ []) (hp : lookupField fs "player" = some p) :
    load_state (save_state (Json.obj fs)) = some (Json.obj fs) := by
  cases fs with
  | nil => exact absurd rfl hne
  | cons kv rest => simp [save_state, load_state, Json.falsy, Json.hasMem, hp]

theorem save_load_roundtrip_witness :
    ([(("player" : String), Json.obj [("hp", Json.num 3)]), ("extra", Json.null)] ≠ []) ∧
    lookupField [(("player" : String), Json.obj [("hp", Json.num 3)]), ("extra", Json.null)]
      "player" = some (Json.obj [("hp", Json.num 3)]) ∧
    load_state (save_state (Json.obj
        [("player", Json.obj [("hp", Json.num 3)]), ("extra", Json.null)])) =
      some (Json.obj [("player", Json.obj [("hp", Json.num 3)]), ("extra", Json.null)]) :=
  ⟨List.cons_ne_nil _ _, rfl,
    save_load_roundtrip _ _ (List.cons_ne_nil _ _) rfl⟩

/-- C10: a non-empty record with a `player` key but no `combat` key is a
value `_load_state` can return, and on it `start_combat` and
`end_combat` hit an uncaught missing-key exception instead of returning
a confirmation string, leaving the backing file unwritten. -/
theorem combat_ops_missing_combat_exn (fs : List (String × Json)) (p : Json)
    (enemies : List (String × Int)) (hne : fs ≠ [])
    (hp : lookupField fs "player" = some p)
    (hc : lookupField fs "combat" = none) :
    load_state (FileState.parsed (Json.obj fs)) = some (Json.obj fs) ∧
    start_combat enemies (Json.obj fs) = OpOutcome.exn ∧
    end_combat (Json.obj fs) = OpOutcome.exn ∧
    runOp (start_combat enemies) (FileState.parsed (Json.obj fs)) =
      (FileState.parsed (Json.obj fs), none) ∧
    runOp end_combat (FileState.parsed (Json.obj fs)) =
      (FileState.parsed (Json.obj fs), none) := by
  have hload : load_state (FileState.parsed (Json.obj fs)) = some (Json.obj fs) := by
    cases fs with
    | nil => exact absurd rfl hne
    | cons kv rest => simp [load_state, Json.falsy, Json.hasMem, hp]
  have hstart : start_combat enemies (Json.obj fs) = OpOutcome.exn := by
    simp [start_combat, Json.getItem, hc]
  have hend : end_combat (Json.obj fs) = OpOutcome.exn := by
    simp [end_combat, Json.getItem, hc]
  exact ⟨hload, hstart, hend, by simp [runOp, hload, hstart], by simp [runOp, hload, hend]⟩

theorem combat_ops_missing_combat_exn_witness :
    ([(("player" : String), Json.obj [])] ≠ []) ∧
    lookupField [(("player" : String), Json.obj [])] "player" = some (Json.obj []) ∧
    lookupField [(("player" : String), Json.obj [])] "combat" = none ∧
    load_state (FileState.parsed (Json.obj [("player", Json.obj [])])) =
      some (Json.obj [("player", Json.obj [])]) ∧
    start_combat [("Goblin", 7)] (Json.obj [("player", Json.obj [])]) = OpOutcome.exn ∧
    end_combat (Json.obj [("player", Json.obj [])]) = OpOutcome.exn ∧
    runOp (start_combat [("Goblin", 7)]) (FileState.parsed (Json.obj [("player", Json.obj [])])) =
      (FileState.parsed (Json.obj [("player", Json.obj [])]), none) ∧
    runOp end_combat (FileState.parsed (Json.obj [("player", Json.obj [])])) =
      (FileState.parsed (Json.obj [("player", Json.obj [])]), none) := by
  refine ⟨List.cons_ne_nil _ _, rfl, rfl, ?_⟩
  have h := combat_ops_missing_combat_exn [("player", Json.obj [])] (Json.obj [])
    [("Goblin", 7)] (List.cons_ne_nil _ _) rfl rfl
  exact ⟨h.1, h.2.1, h.2.2.1, h.2.2.2.1, h.2.2.2.2⟩

theorem apply_damage_player_core (fs pf : List (String × Json)) (target : String)
    (hp d : Int) (htl : strLower target = "player")
    (hpl : lookupField fs "player" = some (Json.obj pf))
    (hhp : lookupField pf "hp" = some (Json.num hp)) :
    apply_damage target d (Json.obj fs) =
      OpOutcome.ok
        (Json.obj (setField fs "player" (Json.obj (setField pf "hp" (Json.num (hp - d))))))
        ("Player took " ++ toString d ++ " damage. HP: " ++ toString hp ++
          " -> " ++ toString (hp - d) ++ ".") := by
  simp [apply_damage, htl, hpl, Json.hasMem, hhp, Json.getItem, Json.asInt, Json.setItem]

/-- C6: when the player record has an `hp` field with value `hp`, any
target lowercasing to `"player"` makes `apply_damage` set `player.hp`
to `hp - d` with no floor at zero, save, and report old and new HP; in
particular the targets `"Player"` and `"player"` behave identically. -/
theorem apply_damage_player_hit (fs pf : List (String × Json)) (target : String)
    (hp d : Int) (htl : strLower target = "player")
    (hpl : lookupField fs "player" = some (Json.obj pf))
    (hhp : lookupField pf "hp" = some (Json.num hp)) :
    apply_damage target d (Json.obj fs) =
      OpOutcome.ok
        (Json.obj (setField fs "player" (Json.obj (setField pf "hp" (Json.num (hp - d))))))
        ("Player took " ++ toString d ++ " damage. HP: " ++ toString hp ++
          " -> " ++ toString (hp - d) ++ ".") ∧
    apply_damage "Player" d (Json.obj fs) = apply_damage "player" d (Json.obj fs) :=
  ⟨apply_damage_player_core fs pf target hp d htl hpl hhp,
    (apply_damage_player_core fs pf "Player" hp d (by decide) hpl hhp).trans
      (apply_damage_player_core fs pf "player" hp d (by decide) hpl hhp).symm⟩

theorem apply_damage_player_hit_witness :
    strLower "player" = "player" ∧
    lookupField [(("player" : String), Json.obj [("hp", Json.num 2)])] "player" =
      some (Json.obj [("hp", Json.num 2)]) ∧
    lookupField [(("hp" : String), Json.num 2)] "hp" = some (Json.num 2) ∧
    (apply_damage "player" 5 (Json.obj [("player", Json.obj [("hp", Json.num 2)])]) =
      OpOutcome.ok
        (Json.obj (setField [("player", Json.obj [("hp", Json.num 2)])] "player"
          (Json.obj (setField [("hp", Json.num 2)] "hp" (Json.num (2 - 5))))))
        ("Player took " ++ toString (5 : Int) ++ " damage. HP: " ++ toString (2 : Int) ++
          " -> " ++ toString ((2 : Int) - 5) ++ ".") ∧
     apply_damage "Player" 5 (Json.obj [("player", Json.obj [("hp", Json.num 2)])]) =
       apply_damage "player" 5 (Json.obj [("player", Json.obj [("hp", Json.num 2)])])) :=
  ⟨rfl, rfl, rfl, apply_damage_player_hit _ _ "player" 2 5 rfl rfl rfl⟩

/-- C7: when the player record lacks an `hp` key, `apply_damage` on a
target lowercasing to `"player"` returns the initialize-first error
string, throws nothing, mutates nothing and saves nothing — the
persisted file is unchanged. -/
theorem apply_damage_player_uninitialized (fs pf : List (String × Json))
    (target : String) (d : Int) (htl : strLower target = "player")
    (hpl : lookupField fs "player" = some (Json.obj pf))
    (hhp : lookupField pf "hp" = none) :
    apply_damage target d (Json.obj fs) =
      OpOutcome.soft "Error: Player HP not initialized. Ask player for their max HP first." ∧
    ∀ f, load_state f = some (Json.obj fs) →
      runOp (apply_damage target d) f =
        (f, some "Error: Player HP not initialized. Ask player for their max HP first.") := by
  have h1 : apply_damage target d (Json.obj fs) =
      OpOutcome.soft "Error: Player HP not initialized. Ask player for their max HP first." := by
    simp [apply_damage, htl, hpl, Json.hasMem, hhp]
  exact ⟨h1, fun f hf => by simp [runOp, hf, h1]⟩

theorem apply_damage_player_uninitialized_witness :
    strLower "player" = "player" ∧
    lookupField [(("player" : String), Json.obj [("name", Json.str "X")])] "player" =
      some (Json.obj [("name", Json.str "X")]) ∧
    lookupField [(("name" : String), Json.str "X")] "hp" = none ∧
    (apply_damage "player" 3 (Json.obj [("player", Json.obj [("name", Json.str "X")])]) =
      OpOutcome.soft "Error: Player HP not initialized. Ask player for their max HP first." ∧
     runOp (apply_damage "player" 3)
        (FileState.parsed (Json.obj [("player", Json.obj [("name", Json.str "X")])])) =
      (FileState.parsed (Json.obj [("player", Json.obj [("name", Json.str "X")])]),
        some "Error: Player HP not initialized. Ask player for their max HP first.")) := by
  have h := apply_damage_player_uninitialized [("player", Json.obj [("name", Json.str "X")])]
    [("name", Json.str "X")] "player" 3 rfl rfl rfl
  exact ⟨rfl, rfl, rfl, h.1, h.2 _ rfl⟩

/-- C4: for a target not lowercasing to `"player"`, when combat is
inactive or the target is not a key of `combat.enemies`, `apply_damage`
returns the not-found error string, performs no mutation and does not
save — the persisted file after the call equals the one before. -/
theorem apply_damage_target_not_found (fs cf ef : List (String × Json))
    (target : String) (d : Int) (a : Bool)
    (htl : strLower target ≠ "player")
    (hcf : lookupField fs "combat" = some (Json.obj cf))
    (hact : lookupField cf "active" = some (Json.bool a))
    (hen : lookupField cf "enemies" = some (Json.obj ef))
    (hcond : a = false ∨ lookupField ef target = none) :
    apply_damage target d (Json.obj fs) = OpOutcome.soft (targetNotFoundMsg target) ∧
    ∀ f, load_state f = some (Json.obj fs) →
      runOp (apply_damage target d) f = (f, some (targetNotFoundMsg target)) := by
  have h1 : apply_damage target d (Json.obj fs) = OpOutcome.soft (targetNotFoundMsg target) := by
    rcases hcond with hfalse | hmiss
    · subst hfalse
      simp [apply_damage, htl, hcf, hact, Json.falsy]
    · cases a with
      | false => simp [apply_damage, htl, hcf, hact, Json.falsy]
      | true => simp [apply_damage, htl, hcf, hact, Json.falsy, hen, Json.hasMem, hmiss]
  exact ⟨h1, fun f hf => by simp [runOp, hf, h1]⟩

theorem apply_damage_target_not_found_witness :
    strLower "Goblin" ≠ "player" ∧
    lookupField defaultFields "combat" = some (Json.obj defaultCombatFields) ∧
    lookupField defaultCombatFields "active" = some (Json.bool false) ∧
    lookupField defaultCombatFields "enemies" = some (Json.obj []) ∧
    (apply_damage "Goblin" 5 defaultState = OpOutcome.soft (targetNotFoundMsg "Goblin") ∧
     runOp (apply_damage "Goblin" 5) FileState.absent =
       (FileState.absent, some (targetNotFoundMsg "Goblin"))) := by
  have h := apply_damage_target_not_found defaultFields defaultCombatFields []
    "Goblin" 5 false (by decide) rfl rfl rfl (Or.inl rfl)
  exact ⟨by decide, rfl, rfl, rfl, h.1, h.2 FileState.absent rfl⟩

/-- C2: with combat active and `target` a key of `combat.enemies`
holding HP `hp`, `apply_damage target d` removes the key entirely when
`hp - d ≤ 0` (and sets `combat.active` to `false` exactly when the
enemies dict thereby becomes empty), or updates the key to `hp - d`
when `hp - d > 0`; in both cases the new state is saved (`ok`) and the
returned message reflects damage or death and, if applicable, combat
end. -/
theorem apply_damage_enemy_hit (fs cf ef : List (String × Json)) (target : String)
    (hp d : Int) (htl : strLower target ≠ "player")
    (hcf : lookupField fs "combat" = some (Json.obj cf))
    (hact : lookupField cf "active" = some (Json.bool true))
    (hen : lookupField cf "enemies" = some (Json.obj ef))
    (htg : lookupField ef target = some (Json.num hp))
    (hnd : (ef.map Prod.fst).Nodup) :
    (hp - d ≤ 0 →
      ∃ fs2, apply_damage target d (Json.obj fs) = OpOutcome.ok (Json.obj fs2)
          (if (removeField ef target).isEmpty then
            target ++ " took " ++ toString d ++ " damage and has died! Combat has ended."
          else target ++ " took " ++ toString d ++ " damage and has died!") ∧
        ∃ cf2, lookupField fs2 "combat" = some (Json.obj cf2) ∧
          lookupField cf2 "enemies" = some (Json.obj (removeField ef target)) ∧
          lookupField (removeField ef target) target = none ∧
          lookupField cf2 "active" = some (Json.bool (!(removeField ef target).isEmpty))) ∧
    (0 < hp - d →
      ∃ fs2, apply_damage target d (Json.obj fs) = OpOutcome.ok (Json.obj fs2)
          (target ++ " took " ++ toString d ++ " damage. HP: " ++ toString hp ++
            " -> " ++ toString (hp - d) ++ ".") ∧
        ∃ cf2, lookupField fs2 "combat" = some (Json.obj cf2) ∧
          lookupField cf2 "enemies" = some (Json.obj (setField ef target (Json.num (hp - d)))) ∧
          lookupField (setField ef target (Json.num (hp - d))) target =
            some (Json.num (hp - d)) ∧
          lookupField cf2 "active" = some (Json.bool true)) := by
  constructor
  · intro hle
    by_cases hemp : (removeField ef target).isEmpty = true
    · refine ⟨setField fs "combat" (Json.obj (setField
          (setField cf "enemies" (Json.obj (removeField ef target)))
          "active" (Json.bool false))), ?_, ?_⟩
      · simp [apply_damage, htl, hcf, hact, Json.falsy, hen, Json.hasMem, htg,
          Json.getItem, Json.asInt, hle, Json.delItem, hemp]
      · refine ⟨_, lookupField_setField_self _ _ _, ?_, lookupField_removeField_self _ _ hnd, ?_⟩
        · rw [lookupField_setField_ne _ _ _ _ (by decide), lookupField_setField_self]
        · simp [lookupField_setField_self, hemp]
    · rw [Bool.not_eq_true] at hemp
      refine ⟨setField fs "combat" (Json.obj (setField cf "enemies"
          (Json.obj (removeField ef target)))), ?_, ?_⟩
      · simp [apply_damage, htl, hcf, hact, Json.falsy, hen, Json.hasMem, htg,
          Json.getItem, Json.asInt, hle, Json.delItem, hemp]
      · refine ⟨_, lookupField_setField_self _ _ _, lookupField_setField_self _ _ _,
          lookupField_removeField_self _ _ hnd, ?_⟩
        have hne : ("active" : String) ≠ "enemies" := by decide
        simp [lookupField_setField_ne _ _ _ _ hne, hact, hemp]
  · intro hgt
    have hle : ¬ hp - d ≤ 0 := by omega
    refine ⟨setField fs "combat" (Json.obj (setField cf "enemies"
        (Json.obj (setField ef target (Json.num (hp - d)))))), ?_, ?_⟩
    · simp [apply_damage, htl, hcf, hact, Json.falsy, hen, Json.hasMem, htg,
        Json.getItem, Json.asInt, hle, Json.setItem]
    · refine ⟨_, lookupField_setField_self _ _ _, lookupField_setField_self _ _ _,
        lookupField_setField_self _ _ _, ?_⟩
      rw [lookupField_setField_ne _ _ _ _ (by decide), hact]

theorem apply_damage_enemy_hit_witness :
    strLower "Goblin" ≠ "player" ∧
    ((7 : Int) - 7 ≤ 0) ∧
    ((([(("Goblin" : String), Json.num 7)]).map Prod.fst).Nodup) ∧
    (∃ fs2, apply_damage "Goblin" 7
          (Json.obj [("player", Json.obj defaultPlayerFields),
            ("combat", Json.obj [("active", Json.bool true), ("round", Json.num 0),
              ("initiative_order", Json.arr []),
              ("enemies", Json.obj [("Goblin", Json.num 7)])]),
            ("inventory", Json.arr [])]) = OpOutcome.ok (Json.obj fs2)
        (if (removeField [(("Goblin" : String), Json.num 7)] "Goblin").isEmpty then
          "Goblin" ++ " took " ++ toString (7 : Int) ++ " damage and has died! Combat has ended."
        else "Goblin" ++ " took " ++ toString (7 : Int) ++ " damage and has died!") ∧
      ∃ cf2, lookupField fs2 "combat" = some (Json.obj cf2) ∧
        lookupField cf2 "enemies" =
          some (Json.obj (removeField [(("Goblin" : String), Json.num 7)] "Goblin")) ∧
        lookupField (removeField [(("Goblin" : String), Json.num 7)] "Goblin") "Goblin" = none ∧
        lookupField cf2 "active" =
          some (Json.bool (!(removeField [(("Goblin" : String), Json.num 7)] "Goblin").isEmpty))) :=
  ⟨by decide, by decide, by decide,
    (apply_damage_enemy_hit
      [("player", Json.obj defaultPlayerFields),
        ("combat", Json.obj [("active", Json.bool true), ("round", Json.num 0),
          ("initiative_order", Json.arr []),
          ("enemies", Json.obj [("Goblin", Json.num 7)])]),
        ("inventory", Json.arr [])]
      [("active", Json.bool true), ("round", Json.num 0),
        ("initiative_order", Json.arr []), ("enemies", Json.obj [("Goblin", Json.num 7)])]
      [("Goblin", Json.num 7)]
      "Goblin" 7 7 (by decide) rfl rfl rfl rfl (by decide)).1 (by decide)⟩

/-- Inversion helper: a successful `getItem` pins the value to a dict. -/
theorem Json.getItem_eq_some {j v : Json} {k : String} (h : j.getItem k = some v) :
    ∃ fs, j = Json.obj fs ∧ lookupField fs k = some v := by
  cases j
  case obj fs => exact ⟨fs, rfl, h⟩
  all_goals simp [Json.getItem] at h

theorem apply_damage_ok {target : String} {d : Int} {st st' : Json} {msg : String}
    (h : apply_damage target d st = OpOutcome.ok st' msg) :
    ∃ fs, st = Json.obj fs ∧
      ((∃ pf p2, lookupField fs "player" = some (Json.obj pf) ∧
          st' = Json.obj (setField fs "player" (Json.obj p2))) ∨
       (∃ cf ef aJ, lookupField fs "combat" = some (Json.obj cf) ∧
          lookupField cf "active" = some aJ ∧ aJ.falsy = false ∧
          lookupField cf "enemies" = some (Json.obj ef) ∧
          ((st' = Json.obj (setField fs "combat" (Json.obj (setField
              (setField cf "enemies" (Json.obj (removeField ef target)))
              "active" (Json.bool false)))) ∧ (removeField ef target).isEmpty = true) ∨
           (st' = Json.obj (setField fs "combat" (Json.obj (setField cf "enemies"
              (Json.obj (removeField ef target))))) ∧ (removeField ef target).isEmpty = false) ∨
           (∃ v, st' = Json.obj (setField fs "combat" (Json.obj (setField cf "enemies"
              (Json.obj (setField ef target v))))))))) := by
  cases st
  case obj fs =>
    refine ⟨fs, rfl, ?_⟩
    simp only [apply_damage] at h
    split at h
    · -- player branch
      left
      cases hpl : lookupField fs "player" with
      | none => simp only [hpl] at h; exact absurd h (by simp)
      | some p =>
        simp only [hpl] at h
        cases hm : p.hasMem "hp" with
        | none => simp only [hm] at h; exact absurd h (by simp)
        | some bv =>
          simp only [hm] at h
          cases bv with
          | false => exact absurd h (by simp)
          | true =>
            cases hg : p.getItem "hp" with
            | none => simp only [hg] at h; exact absurd h (by simp)
            | some hpJ =>
              simp only [hg] at h
              obtain ⟨pf, rfl, hlk⟩ := Json.getItem_eq_some hg
              cases hi : hpJ.asInt with
              | none => simp only [hi] at h; exact absurd h (by simp)
              | some oh =>
                simp only [hi, Json.setItem, OpOutcome.ok.injEq] at h
                exact ⟨pf, setField pf "hp" (Json.num (oh - d)), rfl, h.1.symm⟩
    · -- enemy branch
      right
      cases hc : lookupField fs "combat" with
      | none =>
        simp only [hc] at h
        simp [lookupField, Json.falsy] at h
      | some cj =>
        simp only [hc] at h
        cases cj
        case obj cf =>
          cases ha : lookupField cf "active" with
          | none => simp only [ha] at h; simp [Json.falsy] at h
          | some aJ =>
            simp only [ha] at h
            by_cases hf : aJ.falsy
            · rw [if_pos hf] at h; exact absurd h (by simp)
            · rw [if_neg hf] at h
              rw [Bool.not_eq_true] at hf
              cases he : lookupField cf "enemies" with
              | none =>
                simp only [he] at h
                simp [Json.hasMem, lookupField] at h
              | some ej =>
                simp only [he] at h
                cases hm : ej.hasMem target with
                | none => simp only [hm] at h; exact absurd h (by simp)
                | some bv =>
                  simp only [hm] at h
                  cases bv with
                  | false => exact absurd h (by simp)
                  | true =>
                    cases hg : ej.getItem target with
                    | none => simp only [hg] at h; exact absurd h (by simp)
                    | some hpJ =>
                      simp only [hg] at h
                      obtain ⟨ef, rfl, htg⟩ := Json.getItem_eq_some hg
                      cases hi : hpJ.asInt with
                      | none => simp only [hi] at h; exact absurd h (by simp)
                      | some oh =>
                        simp only [hi] at h
                        refine ⟨cf, ef, aJ, rfl, ha, hf, he, ?_⟩
                        by_cases hd : oh - d ≤ 0
                        · rw [if_pos hd] at h
                          simp only [Json.delItem, Json.falsy] at h
                          by_cases hemp : (removeField ef target).isEmpty
                          · rw [if_pos hemp] at h
                            simp only [OpOutcome.ok.injEq] at h
                            exact Or.inl ⟨h.1.symm, hemp⟩
                          · rw [if_neg hemp] at h
                            simp only [OpOutcome.ok.injEq] at h
                            exact Or.inr (Or.inl ⟨h.1.symm, by simpa using hemp⟩)
                        · rw [if_neg hd] at h
                          simp only [Json.setItem, OpOutcome.ok.injEq] at h
                          exact Or.inr (Or.inr ⟨Json.num (oh - d), h.1.symm⟩)
        all_goals simp at h
  all_goals simp [apply_damage] at h


theorem initialize_player_ok {n r c b : String} {mh ac : Int} {st st' : Json}
    {msg : String} (h : initialize_player n r c b mh ac st = OpOutcome.ok st' msg) :
    ∃ fs pf, st = Json.obj fs ∧ lookupField fs "player" = some (Json.obj pf) ∧
      ∃ pf7, st' = Json.obj (setField fs "player" (Json.obj pf7)) := by
  cases st
  case obj fs =>
    simp only [initialize_player, Json.getItem] at h
    split at h
    · exact absurd h (by simp)
    · next p heq =>
      split at h
      · next pf =>
        simp only [Json.setItem, OpOutcome.ok.injEq] at h
        exact ⟨fs, pf, rfl, heq, _, h.1.symm⟩
      all_goals exact absurd h (by simp)
  all_goals simp [initialize_player, Json.getItem] at h

theorem add_to_inventory_ok {items : List String} {st st' : Json} {msg : String}
    (h : add_to_inventory items st = OpOutcome.ok st' msg) :
    ∃ fs xs, st = Json.obj fs ∧
      (lookupField fs "inventory" = some (Json.arr xs) ∨
        (lookupField fs "inventory" = none ∧ xs = [])) ∧
      st' = Json.obj (setField fs "inventory" (Json.arr (xs ++ items.map Json.str))) := by
  cases st
  case obj fs =>
    simp only [add_to_inventory] at h
    cases hi : lookupField fs "inventory" with
    | none =>
      simp only [hi, OpOutcome.ok.injEq] at h
      exact ⟨fs, [], rfl, Or.inr ⟨hi, rfl⟩, h.1.symm⟩
    | some v =>
      simp only [hi] at h
      cases v
      case arr xs =>
        simp only [OpOutcome.ok.injEq] at h
        exact ⟨fs, xs, rfl, Or.inl hi, h.1.symm⟩
      all_goals exact absurd h (by simp)
  all_goals simp [add_to_inventory] at h

theorem start_combat_ok {enemies : List (String × Int)} {st st' : Json} {msg : String}
    (h : start_combat enemies st = OpOutcome.ok st' msg) :
    ∃ fs cf, st = Json.obj fs ∧ lookupField fs "combat" = some (Json.obj cf) ∧
      st' = Json.obj (setField fs "combat" (Json.obj (setField
        (setField cf "active" (Json.bool true)) "enemies"
        (Json.obj (enemies.map (fun e => (e.1, Json.num e.2))))))) := by
  cases st
  case obj fs =>
    simp only [start_combat, Json.getItem] at h
    cases hc : lookupField fs "combat" with
    | none => simp only [hc] at h; exact absurd h (by simp)
    | some c =>
      simp only [hc] at h
      cases c
      case obj cf =>
        simp only [Json.setItem, OpOutcome.ok.injEq] at h
        exact ⟨fs, cf, rfl, hc, h.1.symm⟩
      all_goals exact absurd h (by simp)
  all_goals simp [start_combat, Json.getItem] at h

theorem end_combat_ok {st st' : Json} {msg : String}
    (h : end_combat st = OpOutcome.ok st' msg) :
    ∃ fs cf, st = Json.obj fs ∧ lookupField fs "combat" = some (Json.obj cf) ∧
      st' = Json.obj (setField fs "combat" (Json.obj (setField
        (setField cf "active" (Json.bool false)) "enemies" (Json.obj [])))) := by
  cases st
  case obj fs =>
    simp only [end_combat, Json.getItem] at h
    cases hc : lookupField fs "combat" with
    | none => simp only [hc] at h; exact absurd h (by simp)
    | some c =>
      simp only [hc] at h
      cases c
      case obj cf =>
        simp only [Json.setItem, OpOutcome.ok.injEq] at h
        exact ⟨fs, cf, rfl, hc, h.1.symm⟩
      all_goals exact absurd h (by simp)
  all_goals simp [end_combat, Json.getItem] at h

theorem step_combatInv {st st' : Json} (hs : Step st st') (hi : combatInv st) :
    combatInv st' := by
  cases hs with
  | init_player n r c b mh ac st st' msg h =>
    obtain ⟨fs, pf, rfl, hpl, pf7, rfl⟩ := initialize_player_ok h
    intro fs' cf' heq hcf' hact'
    injection heq with h2
    subst h2
    rw [lookupField_setField_ne _ _ _ _ (by decide)] at hcf'
    exact hi fs cf' rfl hcf' hact'
  | add_inv items st st' msg h =>
    obtain ⟨fs, xs, rfl, hdisj, rfl⟩ := add_to_inventory_ok h
    intro fs' cf' heq hcf' hact'
    injection heq with h2
    subst h2
    rw [lookupField_setField_ne _ _ _ _ (by decide)] at hcf'
    exact hi fs cf' rfl hcf' hact'
  | start enemies st st' msg h =>
    obtain ⟨fs, cf, rfl, hcf, rfl⟩ := start_combat_ok h
    intro fs' cf' heq hcf' hact'
    injection heq with h2
    subst h2
    rw [lookupField_setField_self] at hcf'
    injection hcf' with h3
    injection h3 with h4
    subst h4
    rw [lookupField_setField_ne _ _ _ _ (by decide),
      lookupField_setField_self] at hact'
    exact absurd hact' (by simp)
  | damage target d st st' msg h =>
    obtain ⟨fs, rfl, hcase⟩ := apply_damage_ok h
    rcases hcase with ⟨pf, p2, hpl, rfl⟩ | ⟨cf, ef, aJ, hcf, ha, hf, he, hsub⟩
    · intro fs' cf' heq hcf' hact'
      injection heq with h2
      subst h2
      rw [lookupField_setField_ne _ _ _ _ (by decide)] at hcf'
      exact hi fs cf' rfl hcf' hact'
    · rcases hsub with ⟨rfl, hemp⟩ | ⟨rfl, hemp⟩ | ⟨v, rfl⟩
      · intro fs' cf' heq hcf' hact'
        injection heq with h2
        subst h2
        rw [lookupField_setField_self] at hcf'
        injection hcf' with h3
        injection h3 with h4
        subst h4
        rw [lookupField_setField_ne _ _ _ _ (by decide), lookupField_setField_self]
        cases hrm : removeField ef target with
        | nil => rfl
        | cons a l => rw [hrm] at hemp; simp [List.isEmpty] at hemp
      · intro fs' cf' heq hcf' hact'
        injection heq with h2
        subst h2
        rw [lookupField_setField_self] at hcf'
        injection hcf' with h3
        injection h3 with h4
        subst h4
        rw [lookupField_setField_ne _ _ _ _ (by decide), ha] at hact'
        injection hact' with h5
        rw [h5] at hf
        simp [Json.falsy] at hf
      · intro fs' cf' heq hcf' hact'
        injection heq with h2
        subst h2
        rw [lookupField_setField_self] at hcf'
        injection hcf' with h3
        injection h3 with h4
        subst h4
        rw [lookupField_setField_ne _ _ _ _ (by decide), ha] at hact'
        injection hact' with h5
        rw [h5] at hf
        simp [Json.falsy] at hf
  | endc st st' msg h =>
    obtain ⟨fs, cf, rfl, hcf, rfl⟩ := end_combat_ok h
    intro fs' cf' heq hcf' hact'
    injection heq with h2
    subst h2
    rw [lookupField_setField_self] at hcf'
    injection hcf' with h3
    injection h3 with h4
    subst h4
    rw [lookupField_setField_self]

theorem steps_combatInv {st st' : Json} (h : Steps st st') (hi : combatInv st) :
    combatInv st' := by
  induction h with
  | refl => exact hi
  | tail b c hsteps hstep ih => exact step_combatInv hstep ih

theorem default_combatInv : combatInv defaultState := by
  intro fs cf hfs hcf hact
  rw [defaultState] at hfs
  injection hfs with h1
  subst h1
  have hdc : lookupField defaultFields "combat" = some (Json.obj defaultCombatFields) := rfl
  rw [hdc] at hcf
  injection hcf with h2
  injection h2 with h3
  subst h3
  rfl

/-- C3: every state reachable from the default state by any sequence of
the five mutating operations satisfies the invariant that an inactive
combat record has an empty enemies dict. -/
theorem reachable_combatInv (st : Json) (h : Reachable st) : combatInv st :=
  steps_combatInv h default_combatInv

theorem reachable_combatInv_witness :
    lookupField defaultCombatFields "enemies" = some (Json.obj []) :=
  reachable_combatInv defaultState (Steps.refl _) defaultFields defaultCombatFields
    rfl rfl rfl

theorem step_inventory {st st' : Json} (hs : Step st st') {fs : List (String × Json)}
    {xs : List Json} (hfs : st = Json.obj fs)
    (hinv : lookupField fs "inventory" = some (Json.arr xs)) :
    ∃ fs2 ys, st' = Json.obj fs2 ∧
      lookupField fs2 "inventory" = some (Json.arr (xs ++ ys)) := by
  cases hs with
  | init_player n r c b mh ac st st' msg h =>
    subst hfs
    obtain ⟨fs0, pf, heq, hpl, pf7, rfl⟩ := initialize_player_ok h
    injection heq with h2
    subst h2
    refine ⟨_, [], rfl, ?_⟩
    rw [lookupField_setField_ne _ _ _ _ (by decide), List.append_nil]
    exact hinv
  | add_inv items st st' msg h =>
    subst hfs
    obtain ⟨fs0, xs0, heq, hdisj, rfl⟩ := add_to_inventory_ok h
    injection heq with h2
    subst h2
    rcases hdisj with hsome | ⟨hnone, rfl⟩
    · rw [hinv] at hsome
      injection hsome with h3
      injection h3 with h4
      subst h4
      exact ⟨_, items.map Json.str, rfl, by rw [lookupField_setField_self]⟩
    · rw [hinv] at hnone
      exact absurd hnone (by simp)
  | start enemies st st' msg h =>
    subst hfs
    obtain ⟨fs0, cf, heq, hcf, rfl⟩ := start_combat_ok h
    injection heq with h2
    subst h2
    refine ⟨_, [], rfl, ?_⟩
    rw [lookupField_setField_ne _ _ _ _ (by decide), List.append_nil]
    exact hinv
  | damage target d st st' msg h =>
    subst hfs
    obtain ⟨fs0, heq, hcase⟩ := apply_damage_ok h
    injection heq with h2
    subst h2
    rcases hcase with ⟨pf, p2, hpl, rfl⟩ | ⟨cf, ef, aJ, hcf, ha, hf, he, hsub⟩
    · refine ⟨_, [], rfl, ?_⟩
      rw [lookupField_setField_ne _ _ _ _ (by decide), List.append_nil]
      exact hinv
    · rcases hsub with ⟨rfl, _⟩ | ⟨rfl, _⟩ | ⟨v, rfl⟩ <;>
      · refine ⟨_, [], rfl, ?_⟩
        rw [lookupField_setField_ne _ _ _ _ (by decide), List.append_nil]
        exact hinv
  | endc st st' msg h =>
    subst hfs
    obtain ⟨fs0, cf, heq, hcf, rfl⟩ := end_combat_ok h
    injection heq with h2
    subst h2
    refine ⟨_, [], rfl, ?_⟩
    rw [lookupField_setField_ne _ _ _ _ (by decide), List.append_nil]
    exact hinv

/-- C8: `add_to_inventory` appends the given items, as strings and in
their given order, to the end of the inventory list with no
deduplication or reordering; and across any sequence of saving
operations the inventory only grows, its earlier elements unchanged in
place. -/
theorem inventory_append_only :
    (∀ (items : List String) (fs : List (String × Json)) (xs : List Json),
      lookupField fs "inventory" = some (Json.arr xs) →
      add_to_inventory items (Json.obj fs) =
        OpOutcome.ok
          (Json.obj (setField fs "inventory" (Json.arr (xs ++ items.map Json.str))))
          ("Added to inventory: " ++ String.intercalate ", " items)) ∧
    (∀ st st', Steps st st' → ∀ (fs : List (String × Json)) (xs : List Json),
      st = Json.obj fs → lookupField fs "inventory" = some (Json.arr xs) →
      ∃ fs2 ys, st' = Json.obj fs2 ∧
        lookupField fs2 "inventory" = some (Json.arr (xs ++ ys))) := by
  constructor
  · intro items fs xs hinv
    simp [add_to_inventory, hinv]
  · intro st st' h
    induction h with
    | refl =>
      intro fs xs hfs hinv
      refine ⟨fs, [], hfs, ?_⟩
      rw [List.append_nil]
      exact hinv
    | tail b c hsteps hstep ih =>
      intro fs xs hfs hinv
      obtain ⟨fs2, ys, hb, hinv2⟩ := ih fs xs hfs hinv
      obtain ⟨fs3, zs, hc2, hinv3⟩ := step_inventory hstep hb hinv2
      refine ⟨fs3, ys ++ zs, hc2, ?_⟩
      rw [← List.append_assoc]
      exact hinv3

theorem inventory_append_only_witness :
    lookupField defaultFields "inventory" = some (Json.arr []) ∧
    add_to_inventory ["A", "B"] (Json.obj defaultFields) =
      OpOutcome.ok
        (Json.obj (setField defaultFields "inventory"
          (Json.arr ([] ++ (["A", "B"].map Json.str)))))
        ("Added to inventory: " ++ String.intercalate ", " ["A", "B"]) ∧
    (∃ fs2 ys, defaultState = Json.obj fs2 ∧
      lookupField fs2 "inventory" = some (Json.arr ([] ++ ys))) :=
  ⟨rfl, inventory_append_only.1 ["A", "B"] defaultFields [] rfl,
    inventory_append_only.2 defaultState defaultState (Steps.refl _) defaultFields []
      rfl rfl⟩

/-- C9: no saving operation changes `combat.round` or
`combat.initiative_order`: whenever a loaded state carries a combat
record, the saved state carries one whose `round` and
`initiative_order` entries are unchanged. -/
theorem ops_preserve_round_initiative {st st' : Json} (hs : Step st st')
    (fs cf : List (String × Json)) (hfs : st = Json.obj fs)
    (hcf : lookupField fs "combat" = some (Json.obj cf)) :
    ∃ fs2 cf2, st' = Json.obj fs2 ∧ lookupField fs2 "combat" = some (Json.obj cf2) ∧
      lookupField cf2 "round" = lookupField cf "round" ∧
      lookupField cf2 "initiative_order" = lookupField cf "initiative_order" := by
  cases hs with
  | init_player n r c b mh ac st st' msg h =>
    subst hfs
    obtain ⟨fs0, pf, heq, hpl, pf7, rfl⟩ := initialize_player_ok h
    injection heq with h2
    subst h2
    refine ⟨_, cf, rfl, ?_, rfl, rfl⟩
    rw [lookupField_setField_ne _ _ _ _ (by decide)]
    exact hcf
  | add_inv items st st' msg h =>
    subst hfs
    obtain ⟨fs0, xs0, heq, hdisj, rfl⟩ := add_to_inventory_ok h
    injection heq with h2
    subst h2
    refine ⟨_, cf, rfl, ?_, rfl, rfl⟩
    rw [lookupField_setField_ne _ _ _ _ (by decide)]
    exact hcf
  | start enemies st st' msg h =>
    subst hfs
    obtain ⟨fs0, cf0, heq, hcf0, rfl⟩ := start_combat_ok h
    injection heq with h2
    subst h2
    rw [hcf] at hcf0
    injection hcf0 with h3
    injection h3 with h4
    subst h4
    refine ⟨_, _, rfl, lookupField_setField_self _ _ _, ?_, ?_⟩
    · rw [lookupField_setField_ne _ _ _ _ (by decide),
        lookupField_setField_ne _ _ _ _ (by decide)]
    · rw [lookupField_setField_ne _ _ _ _ (by decide),
        lookupField_setField_ne _ _ _ _ (by decide)]
  | damage target d st st' msg h =>
    subst hfs
    obtain ⟨fs0, heq, hcase⟩ := apply_damage_ok h
    injection heq with h2
    subst h2
    rcases hcase with ⟨pf, p2, hpl, rfl⟩ | ⟨cf0, ef, aJ, hcf0, ha, hf, he, hsub⟩
    · refine ⟨_, cf, rfl, ?_, rfl, rfl⟩
      rw [lookupField_setField_ne _ _ _ _ (by decide)]
      exact hcf
    · rw [hcf] at hcf0
      injection hcf0 with h3
      injection h3 with h4
      subst h4
      rcases hsub with ⟨rfl, _⟩ | ⟨rfl, _⟩ | ⟨v, rfl⟩
      · refine ⟨_, _, rfl, lookupField_setField_self _ _ _, ?_, ?_⟩
        · rw [lookupField_setField_ne _ _ _ _ (by decide),
            lookupField_setField_ne _ _ _ _ (by decide)]
        · rw [lookupField_setField_ne _ _ _ _ (by decide),
            lookupField_setField_ne _ _ _ _ (by decide)]
      · refine ⟨_, _, rfl, lookupField_setField_self _ _ _, ?_, ?_⟩
        · rw [lookupField_setField_ne _ _ _ _ (by decide)]
        · rw [lookupField_setField_ne _ _ _ _ (by decide)]
      · refine ⟨_, _, rfl, lookupField_setField_self _ _ _, ?_, ?_⟩
        · rw [lookupField_setField_ne _ _ _ _ (by decide)]
        · rw [lookupField_setField_ne _ _ _ _ (by decide)]
  | endc st st' msg h =>
    subst hfs
    obtain ⟨fs0, cf0, heq, hcf0, rfl⟩ := end_combat_ok h
    injection heq with h2
    subst h2
    rw [hcf] at hcf0
    injection hcf0 with h3
    injection h3 with h4
    subst h4
    refine ⟨_, _, rfl, lookupField_setField_self _ _ _, ?_, ?_⟩
    · rw [lookupField_setField_ne _ _ _ _ (by decide),
        lookupField_setField_ne _ _ _ _ (by decide)]
    · rw [lookupField_setField_ne _ _ _ _ (by decide),
        lookupField_setField_ne _ _ _ _ (by decide)]

theorem ops_preserve_round_initiative_witness :
    end_combat defaultState = OpOutcome.ok
      (Json.obj (setField defaultFields "combat" (Json.obj (setField
        (setField defaultCombatFields "active" (Json.bool false)) "enemies"
        (Json.obj []))))) "Combat ended manually." ∧
    (∃ fs2 cf2,
      Json.obj (setField defaultFields "combat" (Json.obj (setField
        (setField defaultCombatFields "active" (Json.bool false)) "enemies"
        (Json.obj [])))) = Json.obj fs2 ∧
      lookupField fs2 "combat" = some (Json.obj cf2) ∧
      lookupField cf2 "round" = lookupField defaultCombatFields "round" ∧
      lookupField cf2 "initiative_order" =
        lookupField defaultCombatFields "initiative_order") :=
  ⟨rfl, ops_preserve_round_initiative
    (Step.endc defaultState _ "Combat ended manually." rfl)
    defaultFields defaultCombatFields rfl rfl⟩

end DndAgent
